import Mathlib

/-!
Verification of the dev-events persistence layer (Event / Booking models and
the MongoDB connection manager) against its natural-language specification.

The source under scrutiny:
- src/database/event.model.ts  : EventSchema, its pre-save hook (slug, date,
  time normalization) and the unique slug index;
- src/unnamed/part_000 (booking model) : BookingSchema and its pre-save
  referential-integrity hook against Event;
- src/lib/mongodb.ts : connectDB, the process-wide cached connection.

Machine strings are modelled as Lean String / List Char; character classes of
the JavaScript regexes are modelled over code points (Char.toNat).
-/

namespace DevEvents

/-! ### Character classes of the JavaScript regexes -/

/-- The JavaScript whitespace class: members of regex `\s` (also the set
removed by String.prototype.trim): tab, LF, VT, FF, CR, space, NBSP and the
Unicode space separators, LS, PS, NNBSP, MMSP, ideographic space, BOM. -/
def isJsWS (c : Char) : Bool :=
  decide (c.toNat = 0x9) || decide (c.toNat = 0xA) || decide (c.toNat = 0xB) ||
  decide (c.toNat = 0xC) || decide (c.toNat = 0xD) || decide (c.toNat = 0x20) ||
  decide (c.toNat = 0xA0) || decide (c.toNat = 0x1680) ||
  (decide (0x2000 ≤ c.toNat) && decide (c.toNat ≤ 0x200A)) ||
  decide (c.toNat = 0x2028) || decide (c.toNat = 0x2029) ||
  decide (c.toNat = 0x202F) || decide (c.toNat = 0x205F) ||
  decide (c.toNat = 0x3000) || decide (c.toNat = 0xFEFF)

/-- The JavaScript word-character class `\w` (no `u` flag): A-Z, a-z, 0-9, underscore. -/
def isWordChar (c : Char) : Bool :=
  (decide (0x41 ≤ c.toNat) && decide (c.toNat ≤ 0x5A)) ||
  (decide (0x61 ≤ c.toNat) && decide (c.toNat ≤ 0x7A)) ||
  (decide (0x30 ≤ c.toNat) && decide (c.toNat ≤ 0x39)) ||
  decide (c.toNat = 0x5F)

/-- Characters kept by the slug hook's first replace `/[^\w\s-]/g` → "". -/
def keepChar (c : Char) : Bool :=
  isWordChar c || isJsWS c || decide (c.toNat = 0x2D)

/-- The class `[\s_-]` of the slug hook's second replace. -/
def isSep (c : Char) : Bool :=
  isJsWS c || decide (c.toNat = 0x5F) || decide (c.toNat = 0x2D)

/-- Hyphen-minus, the class `-` of the slug hook's third replace. -/
def isHyphen (c : Char) : Bool :=
  decide (c.toNat = 0x2D)

/-! ### List utilities mirroring the string operations -/

/-- Drop the longest all-`p` suffix of a list (the trailing half of
String.prototype.trim, and of the regex `-+$`). -/
def dropTrailWhile (p : Char → Bool) : List Char → List Char
  | [] => []
  | a :: l =>
    match dropTrailWhile p l with
    | [] => if p a then [] else [a]
    | b :: m => a :: b :: m

/-- JavaScript String.prototype.trim on a character list. -/
def trimChars (l : List Char) : List Char :=
  dropTrailWhile isJsWS (l.dropWhile isJsWS)

/-- JavaScript String.prototype.trim. -/
def trimStr (s : String) : String :=
  ⟨trimChars s.data⟩

/-- The replace `/[^\w\s-]/g` → "": remove every character outside
word-characters / whitespace / hyphen. -/
def removeSpecial (l : List Char) : List Char :=
  l.filter keepChar

mutual

/-- The replace `/[\s_-]+/g` → "-": each maximal run of whitespace,
underscores and hyphens becomes a single hyphen. -/
def collapseRuns : List Char → List Char
  | [] => []
  | c :: cs => if isSep c then collapseAfterSep cs else c :: collapseRuns cs

/-- State of `collapseRuns` inside a separator run whose hyphen is pending. -/
def collapseAfterSep : List Char → List Char
  | [] => ['-']
  | c :: cs => if isSep c then collapseAfterSep cs else '-' :: c :: collapseRuns cs

end

/-- The replace `/^-+|-+$/g` → "": strip the leading and the trailing run of
hyphens. -/
def stripEdgeHyphens (l : List Char) : List Char :=
  (dropTrailWhile isHyphen l).dropWhile isHyphen

/-- ASCII lowercasing, modelling String.prototype.toLowerCase on the ASCII
range (all titles in scope are ASCII; outside A-Z the character is kept). -/
def lowerChar (c : Char) : Char :=
  if 0x41 ≤ c.toNat ∧ c.toNat ≤ 0x5A then Char.ofNat (c.toNat + 0x20) else c

/-- The slug derivation of EventSchema's pre-save hook, exactly in source
order: `title.toLowerCase().trim().replace(/[^\w\s-]/g,"").replace(/[\s_-]+/g,"-").replace(/^-+|-+$/g,"")`. -/
def slugChars (l : List Char) : List Char :=
  stripEdgeHyphens (collapseRuns (removeSpecial (trimChars (l.map lowerChar))))

/-- Slug of a title string, as computed by the pre-save hook. -/
def slugify (s : String) : String :=
  ⟨slugChars s.data⟩

/-- Slug derivation following the spec's words: lowercase the title, remove
every character outside word-characters/whitespace/hyphen, replace each run
of whitespace/underscore/hyphen with a single hyphen, strip leading and
trailing hyphens.  (No trim step: the spec does not mention one.)  Used to
compare the source derivation against the spec's description. -/
def specSlugChars (l : List Char) : List Char :=
  stripEdgeHyphens (collapseRuns (removeSpecial (l.map lowerChar)))


/-- Spec-worded slug derivation on strings. -/
def specSlugify (s : String) : String :=
  ⟨specSlugChars s.data⟩

/-! ### Date normalization (EventSchema pre-save hook)

The hook runs `new Date(this.date)`, rejects `NaN` with the error
"Date must be a valid date string", and otherwise stores
`parsedDate.toISOString().split("T")[0]`.  `new Date(string)` is modelled
per ECMA-262's Date Time String Format restricted to its date-only form
`YYYY-MM-DD` (the calendar-date form the specification concerns), which is
interpreted as UTC so the stored day equals the parsed day.  Out-of-format
strings such as "13/01/2025" fall back to implementation-defined parsing
that the major engines reject; they are modelled as unparseable. -/

/-- Decimal value of a digit code point (meaningful on '0'-'9'). -/
def digitVal (c : Char) : Nat := c.toNat - 0x30

/-- ASCII digit test, regex class `[0-9]`. -/
def isDigitC (c : Char) : Bool := decide (0x30 ≤ c.toNat) && decide (c.toNat ≤ 0x39)

/-- Gregorian leap-year rule used by the Date object. -/
def isLeapYear (y : Nat) : Bool :=
  (decide (y % 4 = 0) && !decide (y % 100 = 0)) || decide (y % 400 = 0)

/-- Number of days of month `m` of year `y`. -/
def daysInMonth (y m : Nat) : Nat :=
  if m = 2 then (if isLeapYear y then 29 else 28)
  else if m = 4 ∨ m = 6 ∨ m = 9 ∨ m = 11 then 30
  else 31

/-- Parse a date-only ISO string `YYYY-MM-DD` as `new Date(string)` does,
yielding the (year, month, day) triple, or `none` when the Date would be
`Invalid Date` (wrong shape, month outside 01-12, day outside the month). -/
def parseIsoDate (s : String) : Option (Nat × Nat × Nat) :=
  match s.data with
  | [y1, y2, y3, y4, h1, m1, m2, h2, d1, d2] =>
    if isDigitC y1 && isDigitC y2 && isDigitC y3 && isDigitC y4 &&
        decide (h1.toNat = 0x2D) && isDigitC m1 && isDigitC m2 &&
        decide (h2.toNat = 0x2D) && isDigitC d1 && isDigitC d2 then
      if 1 ≤ digitVal m1 * 10 + digitVal m2 ∧ digitVal m1 * 10 + digitVal m2 ≤ 12 ∧
          1 ≤ digitVal d1 * 10 + digitVal d2 ∧
          digitVal d1 * 10 + digitVal d2 ≤
            daysInMonth
              (digitVal y1 * 1000 + digitVal y2 * 100 + digitVal y3 * 10 + digitVal y4)
              (digitVal m1 * 10 + digitVal m2) then
        some (digitVal y1 * 1000 + digitVal y2 * 100 + digitVal y3 * 10 + digitVal y4,
          digitVal m1 * 10 + digitVal m2, digitVal d1 * 10 + digitVal d2)
      else none
    else none
  | _ => none

/-- The digit character of `n` (meaningful for `n < 10`). -/
def digitChar (n : Nat) : Char := Char.ofNat (0x30 + n)

/-- `parsedDate.toISOString().split("T")[0]`: the UTC calendar date rendered
as `YYYY-MM-DD`. -/
def canonicalDate (y m d : Nat) : String :=
  ⟨[digitChar (y / 1000 % 10), digitChar (y / 100 % 10), digitChar (y / 10 % 10),
    digitChar (y % 10), '-', digitChar (m / 10 % 10), digitChar (m % 10), '-',
    digitChar (d / 10 % 10), digitChar (d % 10)]⟩

/-- Checks that a string has the canonical `YYYY-MM-DD` shape: ten characters,
digits around hyphens at positions 4 and 7, month 01-12, day 01-31. -/
def isCanonDateShape (s : String) : Bool :=
  match s.data with
  | [y1, y2, y3, y4, h1, m1, m2, h2, d1, d2] =>
    isDigitC y1 && isDigitC y2 && isDigitC y3 && isDigitC y4 &&
    decide (h1.toNat = 0x2D) && decide (h2.toNat = 0x2D) &&
    isDigitC m1 && isDigitC m2 && isDigitC d1 && isDigitC d2 &&
    decide (1 ≤ digitVal m1 * 10 + digitVal m2) &&
    decide (digitVal m1 * 10 + digitVal m2 ≤ 12) &&
    decide (1 ≤ digitVal d1 * 10 + digitVal d2) &&
    decide (digitVal d1 * 10 + digitVal d2 ≤ 31)
  | _ => false

/-! ### Time check (EventSchema pre-save hook) -/

/-- The anchored regex of the hook, `/^([0-1]?[0-9]|2[0-3]):[0-5][0-9]$/`.
A match consumes a one- or two-character hour group, a colon and exactly two
minute characters, so exactly the strings of length 4 (hour of one digit,
`[0-9]`, reachable with the optional `[0-1]?` empty) and length 5 (two-digit
hour `[0-1][0-9]` or `2[0-3]`) with the colon at index 1 resp. 2 match;
minutes are `[0-5][0-9]`. -/
def timeOkChars : List Char → Bool
  | [h1, c, m1, m2] =>
    decide (c.toNat = 0x3A) && isDigitC h1 &&
    (decide (0x30 ≤ m1.toNat) && decide (m1.toNat ≤ 0x35)) && isDigitC m2
  | [h1, h2, c, m1, m2] =>
    decide (c.toNat = 0x3A) &&
    (((decide (h1.toNat = 0x30) || decide (h1.toNat = 0x31)) && isDigitC h2) ||
      (decide (h1.toNat = 0x32) && decide (0x30 ≤ h2.toNat) && decide (h2.toNat ≤ 0x33))) &&
    (decide (0x30 ≤ m1.toNat) && decide (m1.toNat ≤ 0x35)) && isDigitC m2
  | _ => false

/-- Time acceptance of the pre-save hook on a string. -/
def timeOk (s : String) : Bool := timeOkChars s.data

/-- The shape asserted by the spec's invariant: exactly `HH:MM` with a
two-digit hour 00-23 and a two-digit minute 00-59.  Written from the spec's
words, to compare against what the hook accepts. -/
def twoDigitTimeChars : List Char → Bool
  | [h1, h2, c, m1, m2] =>
    decide (c.toNat = 0x3A) && isDigitC h1 && isDigitC h2 &&
    decide (digitVal h1 * 10 + digitVal h2 ≤ 23) &&
    isDigitC m1 && isDigitC m2 && decide (digitVal m1 * 10 + digitVal m2 ≤ 59)
  | _ => false

/-- Spec shape on a string. -/
def specTimeShape (s : String) : Bool := twoDigitTimeChars s.data

/-- The amended shape: the hour is one or two digits with value 0-23 (a
leading zero is optional), the minute exactly two digits with value 00-59. -/
def amendedTimeChars : List Char → Bool
  | [h1, c, m1, m2] =>
    decide (c.toNat = 0x3A) && isDigitC h1 &&
    isDigitC m1 && isDigitC m2 && decide (digitVal m1 * 10 + digitVal m2 ≤ 59)
  | [h1, h2, c, m1, m2] =>
    decide (c.toNat = 0x3A) && isDigitC h1 && isDigitC h2 &&
    decide (digitVal h1 * 10 + digitVal h2 ≤ 23) &&
    isDigitC m1 && isDigitC m2 && decide (digitVal m1 * 10 + digitVal m2 ≤ 59)
  | _ => false

/-- Amended shape on a string. -/
def amendedTimeShape (s : String) : Bool := amendedTimeChars s.data

/-! ### Event entity: schema validation and the write path

Mongoose semantics mirrored here: setters (`trim`) run at assignment, then
document validation (`required`, the `enum` on mode, the array validators),
then the user pre-save hook (slug / date / time), then the storage insert
which enforces the unique slug index. -/

/-- Error outcomes of an Event write.  `validationFailed` and the date/time
failures are the spec's ValidationError; `duplicateSlug` is the storage
layer's unique-index violation, the spec's ConstraintViolation. -/
inductive EventError where
  | validationFailed (msg : String)
  | invalidDate
  | invalidTime
  | duplicateSlug
  deriving DecidableEq, Repr

/-- Date branch of the pre-save hook: reject unparseable dates with the
error "Date must be a valid date string", store `YYYY-MM-DD` otherwise. -/
def normalizeDate (s : String) : Except EventError String :=
  match parseIsoDate s with
  | none => .error .invalidDate
  | some (y, m, d) => .ok (canonicalDate y m d)

/-- The fields a caller supplies to an Event write; `none` is an absent
field, mirroring `undefined`. -/
structure EventInput where
  title : Option String
  description : Option String
  overview : Option String
  image : Option String
  venue : Option String
  location : Option String
  date : Option String
  time : Option String
  mode : Option String
  audience : Option String
  organizer : Option String
  agenda : List String
  tags : List String
  deriving DecidableEq, Repr

/-- A persisted Event document (trimmed strings, derived slug, normalized
date). -/
structure EventDoc where
  title : String
  slug : String
  description : String
  overview : String
  image : String
  venue : String
  location : String
  date : String
  time : String
  mode : String
  audience : String
  organizer : String
  agenda : List String
  tags : List String
  deriving DecidableEq, Repr

/-- Mongoose `required` on a trimmed String path: present and non-empty
after the trim setter. -/
def requiredNonBlank (f : Option String) : Bool :=
  match f with
  | none => false
  | some s => !(trimStr s == "")

/-- The `enum` validator on mode, applied to the trimmed value. -/
def modeOk (f : Option String) : Bool :=
  match f with
  | none => false
  | some s => trimStr s == "online" || trimStr s == "offline" || trimStr s == "hybrid"

/-- The checks EventSchema runs on a write, in schema field order, each with
the schema's message: `required` (non-blank after trim) on the string paths,
the `enum` on mode, and the at-least-one-element validators on agenda and
tags. -/
def eventChecks (e : EventInput) : List (Bool × String) :=
  [(requiredNonBlank e.title, "Event title is required"),
   (requiredNonBlank e.description, "Event description is required"),
   (requiredNonBlank e.overview, "Event overview is required"),
   (requiredNonBlank e.image, "Event image is required"),
   (requiredNonBlank e.venue, "Event venue is required"),
   (requiredNonBlank e.location, "Event location is required"),
   (requiredNonBlank e.date, "Event date is required"),
   (requiredNonBlank e.time, "Event time is required"),
   (requiredNonBlank e.mode, "Event mode is required"),
   (modeOk e.mode, "Mode must be either online, offline, or hybrid"),
   (requiredNonBlank e.audience, "Target audience is required"),
   (!e.agenda.isEmpty, "Agenda must contain at least one item"),
   (requiredNonBlank e.organizer, "Event organizer is required"),
   (!e.tags.isEmpty, "At least one tag is required")]

/-- Run checks in order; the first failing one aborts the write with its
message as a ValidationError. -/
def firstFailure : List (Bool × String) → Except EventError Unit
  | [] => .ok ()
  | (ok, msg) :: rest =>
    if ok then firstFailure rest else .error (.validationFailed msg)

/-- Schema validation of EventSchema. -/
def validateEvent (e : EventInput) : Except EventError Unit :=
  firstFailure (eventChecks e)

/-- The value of an input string field after the trim setter. -/
def getTrim (f : Option String) : String := trimStr (f.getD "")

/-- Storage insert enforcing the unique index on slug
(`EventSchema.index({slug: 1}, {unique: true})`); a second document whose
slug is already present is refused by the storage layer. -/
def insertEvent (db : List EventDoc) (doc : EventDoc) :
    Except EventError (List EventDoc × EventDoc) :=
  if db.any (fun d => d.slug == doc.slug) then .error .duplicateSlug
  else .ok (db ++ [doc], doc)

/-- A full Event create: trim setters, schema validation, the pre-save hook
(slug from the title, date normalization, time check — on a new document
every field is modified, so every branch runs), then the indexed insert. -/
def createEvent (db : List EventDoc) (e : EventInput) :
    Except EventError (List EventDoc × EventDoc) :=
  match validateEvent e with
  | .error err => .error err
  | .ok _ =>
    match normalizeDate (getTrim e.date) with
    | .error err => .error err
    | .ok dateN =>
      if timeOk (getTrim e.time) then
        insertEvent db
          { title := getTrim e.title
            slug := slugify (getTrim e.title)
            description := getTrim e.description
            overview := getTrim e.overview
            image := getTrim e.image
            venue := getTrim e.venue
            location := getTrim e.location
            date := dateN
            time := getTrim e.time
            mode := getTrim e.mode
            audience := getTrim e.audience
            organizer := getTrim e.organizer
            agenda := e.agenda
            tags := e.tags }
      else .error .invalidTime

/-- The validation conditions as the spec states them: the eleven string
fields present and non-blank after trimming, mode in the enumeration,
agenda and tags non-empty. -/
def nonBlankPresent (f : Option String) : Prop := ∃ s, f = some s ∧ trimStr s ≠ ""

/-- Spec-worded validity of an Event write, for comparison with
`validateEvent`. -/
def eventValidSpec (e : EventInput) : Prop :=
  nonBlankPresent e.title ∧ nonBlankPresent e.description ∧
  nonBlankPresent e.overview ∧ nonBlankPresent e.image ∧
  nonBlankPresent e.venue ∧ nonBlankPresent e.location ∧
  nonBlankPresent e.date ∧ nonBlankPresent e.time ∧
  nonBlankPresent e.mode ∧ nonBlankPresent e.audience ∧
  nonBlankPresent e.organizer ∧
  (∃ s, e.mode = some s ∧
    trimStr s ∈ (["online", "offline", "hybrid"] : List String)) ∧
  e.agenda ≠ [] ∧ e.tags ≠ []

/-! ### Booking entity: referential integrity at write time -/

/-- Error outcomes of a Booking write: the missing-Event rejection (the
spec's ReferenceError) and the wrapped lookup failure (the spec's
ReferenceCheckFailed), with the hook's messages. -/
inductive BookingError where
  | referenceMissing (msg : String)
  | referenceCheckFailed (msg : String)
  deriving DecidableEq, Repr

/-- A Booking document; the ObjectId is modelled as a natural number. -/
structure BookingDoc where
  eventId : Nat
  email : String
  deriving DecidableEq, Repr

/-- Booking-side view of storage: the ids of the Events that exist, and the
persisted bookings. -/
structure BookingStore where
  eventIds : List Nat
  bookings : List BookingDoc
  deriving DecidableEq, Repr

/-- `Event.findById` against healthy storage: no storage error, and the
document is found exactly when its id exists. -/
def findEventById (st : BookingStore) (i : Nat) : Except String Bool :=
  .ok (st.eventIds.contains i)

/-- The Booking write: BookingSchema's pre-save hook followed by the
persist.  When `eventId` is new or modified the hook awaits the lookup
(passed in as `lookup`, so a storage-level failure can be injected): a
lookup error is wrapped and aborts the write, a missing Event aborts the
write, otherwise the booking is appended.  An error return means nothing
was persisted. -/
def saveBooking (st : BookingStore) (b : BookingDoc) (modifiedEventId : Bool)
    (lookup : Except String Bool) : Except BookingError BookingStore :=
  if modifiedEventId then
    match lookup with
    | .error msg =>
        .error (.referenceCheckFailed ("Error validating event: " ++ msg))
    | .ok false =>
        .error (.referenceMissing
          ("Event with ID " ++ toString b.eventId ++ " does not exist"))
    | .ok true => .ok { st with bookings := st.bookings ++ [b] }
  else .ok { st with bookings := st.bookings ++ [b] }

/-- A Booking create: on a new document `eventId` is always modified, and
the lookup runs against the actual store. -/
def createBooking (st : BookingStore) (b : BookingDoc) :
    Except BookingError BookingStore :=
  saveBooking st b true (findEventById st b.eventId)

/-! ### Connection manager (connectDB)

JavaScript is single-threaded: the body of `connectDB` up to the `await` of
`cached.promise` runs atomically — checking `cached.conn`, checking
`cached.promise` and installing a new attempt promise cannot interleave
with another caller.  `acquireSync` is that atomic prefix; a caller then
either already holds the connection or suspends on an attempt id.
`resumeSuccess` / `resumeFailure` are the two resumptions after the await:
on success `cached.conn` is assigned and returned, on failure
`cached.promise` is reset to null and the error rethrown.  Connection
instances and attempt ids are modelled as naturals;
`attemptsStarted` counts the underlying `mongoose.connect` calls. -/

/-- The connection cache `global.mongoose`: the established connection, the
in-flight attempt, and (for counting) how many attempts were ever started. -/
structure CMState where
  conn : Option Nat
  promise : Option Nat
  attemptsStarted : Nat
  deriving DecidableEq, Repr

/-- Result of the atomic prefix of `connectDB`: an immediate return of the
cached connection, or suspension on the attempt with the given id. -/
inductive AcquireStep where
  | ret (c : Nat)
  | awaits (a : Nat)
  deriving DecidableEq, Repr

/-- The atomic prefix of `connectDB`: return `cached.conn` if set; else
await the existing `cached.promise` if set; else start exactly one new
attempt, install its promise, and await it. -/
def acquireSync (s : CMState) : CMState × AcquireStep :=
  match s.conn with
  | some c => (s, .ret c)
  | none =>
    match s.promise with
    | some a => (s, .awaits a)
    | none =>
      ({ conn := none, promise := some (s.attemptsStarted + 1),
         attemptsStarted := s.attemptsStarted + 1 }, .awaits (s.attemptsStarted + 1))

/-- Resumption of a suspended caller whose awaited attempt resolved with
connection `c`: `cached.conn = await cached.promise; return cached.conn`. -/
def resumeSuccess (s : CMState) (c : Nat) : CMState × Except String Nat :=
  ({ s with conn := some c }, .ok c)

/-- Resumption of a suspended caller whose awaited attempt rejected:
`cached.promise = null; throw error`. -/
def resumeFailure (s : CMState) (err : String) : CMState × Except String Nat :=
  ({ s with promise := none }, .error err)

/-! ### Sample inputs used by the concrete claim instances -/

/-- A fully valid Event input. -/
def baseInput : EventInput :=
  { title := some "My Cool Talk!!"
    description := some "A talk about cool things"
    overview := some "All the cool things"
    image := some "/images/talk.png"
    venue := some "Main Hall"
    location := some "Colombo"
    date := some "2025-01-13"
    time := some "09:05"
    mode := some "online"
    audience := some "Developers"
    organizer := some "DevEvent"
    agenda := ["Intro"]
    tags := ["dev"] }

/-- The document `createEvent [] baseInput` persists. -/
def baseDoc : EventDoc :=
  { title := "My Cool Talk!!"
    slug := "my-cool-talk"
    description := "A talk about cool things"
    overview := "All the cool things"
    image := "/images/talk.png"
    venue := "Main Hall"
    location := "Colombo"
    date := "2025-01-13"
    time := "09:05"
    mode := "online"
    audience := "Developers"
    organizer := "DevEvent"
    agenda := ["Intro"]
    tags := ["dev"] }

/-- The document persisted for the all-punctuation title "!!!": non-empty
title, empty derived slug. -/
def bangDoc : EventDoc :=
  { baseDoc with title := "!!!", slug := "" }

/-! ### Facts about the character classes -/

theorem isSep_of_isHyphen {c : Char} (h : isHyphen c = true) : isSep c = true := by
  simp only [isHyphen, decide_eq_true_eq] at h
  simp [isSep, h]

theorem isHyphen_eq_false {c : Char} (h : isSep c = false) : isHyphen c = false := by
  by_contra hc
  simp only [Bool.not_eq_false] at hc
  rw [isSep_of_isHyphen hc] at h
  cases h

theorem isSep_of_isJsWS {c : Char} (h : isJsWS c = true) : isSep c = true := by
  simp [isSep, h]

theorem keepChar_of_isJsWS {c : Char} (h : isJsWS c = true) : keepChar c = true := by
  simp [keepChar, h]

/-! ### dropTrailWhile lemmas -/

theorem dropTrailWhile_nil (p : Char → Bool) : dropTrailWhile p [] = [] := rfl

theorem dropTrailWhile_cons_nil_pos (p : Char → Bool) (a : Char) (l : List Char)
    (hd : dropTrailWhile p l = []) (hpa : p a = true) :
    dropTrailWhile p (a :: l) = [] := by
  simp only [dropTrailWhile, hd, hpa, if_true]

theorem dropTrailWhile_cons_nil_neg (p : Char → Bool) (a : Char) (l : List Char)
    (hd : dropTrailWhile p l = []) (hpa : p a = false) :
    dropTrailWhile p (a :: l) = [a] := by
  simp only [dropTrailWhile, hd, hpa, if_false, Bool.false_eq_true]

theorem dropTrailWhile_cons_cons (p : Char → Bool) (a b : Char) (l m : List Char)
    (hd : dropTrailWhile p l = b :: m) :
    dropTrailWhile p (a :: l) = a :: b :: m := by
  simp only [dropTrailWhile, hd]

theorem dropTrailWhile_cons_of_neg (p : Char → Bool) (a : Char) (l : List Char)
    (h : p a = false) : dropTrailWhile p (a :: l) = a :: dropTrailWhile p l := by
  cases hd : dropTrailWhile p l with
  | nil => exact dropTrailWhile_cons_nil_neg p a l hd h
  | cons b m => exact dropTrailWhile_cons_cons p a b l m hd

theorem dropTrailWhile_append_singleton (p : Char → Bool) (a : Char) (l : List Char)
    (h : p a = true) : dropTrailWhile p (l ++ [a]) = dropTrailWhile p l := by
  induction l with
  | nil => simp [dropTrailWhile, h]
  | cons b l ih =>
      rw [List.cons_append]
      simp only [dropTrailWhile, ih]

theorem dropTrailWhile_append_all (p : Char → Bool) (w : List Char)
    (hw : ∀ c ∈ w, p c = true) :
    ∀ l, dropTrailWhile p (l ++ w) = dropTrailWhile p l := by
  induction w with
  | nil => intro l; simp
  | cons a w ih =>
      intro l
      have h1 : l ++ a :: w = (l ++ [a]) ++ w := by simp
      rw [h1, ih (fun c hc => hw c (List.mem_cons_of_mem a hc)),
        dropTrailWhile_append_singleton p a l (hw a (List.mem_cons_self a w))]

theorem dropTrailWhile_decomp (p : Char → Bool) (l : List Char) :
    ∃ w, l = dropTrailWhile p l ++ w ∧ ∀ c ∈ w, p c = true := by
  induction l with
  | nil => exact ⟨[], rfl, by simp⟩
  | cons a l ih =>
      obtain ⟨w, hl, hw⟩ := ih
      cases hd : dropTrailWhile p l with
      | nil =>
          rw [hd] at hl
          simp only [List.nil_append] at hl
          by_cases hpa : p a = true
          · refine ⟨a :: l, ?_, ?_⟩
            · rw [dropTrailWhile_cons_nil_pos p a l hd hpa, List.nil_append]
            · intro c hc
              rcases List.mem_cons.mp hc with rfl | hc
              · exact hpa
              · exact hw c (hl ▸ hc)
          · simp only [Bool.not_eq_true] at hpa
            refine ⟨w, ?_, hw⟩
            rw [dropTrailWhile_cons_nil_neg p a l hd hpa, List.cons_append,
              List.nil_append, ← hl]
      | cons b m =>
          rw [hd] at hl
          exact ⟨w, by rw [dropTrailWhile_cons_cons p a b l m hd, List.cons_append, ← hl], hw⟩

/-! ### Collapse of separator runs -/

theorem collapse_all_sep (w : List Char) (hw : ∀ c ∈ w, isSep c = true) :
    collapseAfterSep w = ['-'] ∧
      (collapseRuns w = [] ∨ collapseRuns w = ['-']) := by
  induction w with
  | nil => exact ⟨rfl, Or.inl rfl⟩
  | cons c w ih =>
      have hc : isSep c = true := hw c (List.mem_cons_self c w)
      have ih2 := ih (fun d hd => hw d (List.mem_cons_of_mem c hd))
      constructor
      · rw [collapseAfterSep, if_pos hc]
        exact ih2.1
      · rw [collapseRuns, if_pos hc]
        exact Or.inr ih2.1

theorem stripEdge_cons_hyphen (x : List Char) :
    stripEdgeHyphens ('-' :: x) = stripEdgeHyphens x := by
  unfold stripEdgeHyphens
  cases hd : dropTrailWhile isHyphen x with
  | nil =>
      rw [dropTrailWhile_cons_nil_pos isHyphen '-' x hd (by decide)]
  | cons b m =>
      rw [dropTrailWhile_cons_cons isHyphen '-' b x m hd, List.dropWhile_cons_of_pos (by decide)]

theorem stripEdge_afterSep (v : List Char) :
    stripEdgeHyphens (collapseAfterSep v) = stripEdgeHyphens (collapseRuns v) := by
  cases v with
  | nil => rfl
  | cons c v =>
      by_cases hc : isSep c = true
      · rw [collapseAfterSep, if_pos hc, collapseRuns, if_pos hc]
      · simp only [Bool.not_eq_true] at hc
        rw [collapseAfterSep, if_neg (by simp [hc]), collapseRuns, if_neg (by simp [hc])]
        exact stripEdge_cons_hyphen (c :: collapseRuns v)

theorem collapse_append_sep (w : List Char) (hw : ∀ c ∈ w, isSep c = true) :
    ∀ v : List Char,
      (collapseRuns (v ++ w) = collapseRuns v ∨
        collapseRuns (v ++ w) = collapseRuns v ++ ['-']) ∧
      (collapseAfterSep (v ++ w) = collapseAfterSep v ∨
        collapseAfterSep (v ++ w) = collapseAfterSep v ++ ['-']) := by
  intro v
  induction v with
  | nil =>
      have h := collapse_all_sep w hw
      constructor
      · rcases h.2 with h2 | h2
        · exact Or.inl (by simpa using h2)
        · exact Or.inr (by simpa using h2)
      · exact Or.inl (by simpa using h.1)
  | cons c v ih =>
      by_cases hc : isSep c = true
      · constructor
        · rw [List.cons_append, collapseRuns, if_pos hc, collapseRuns, if_pos hc]
          exact ih.2
        · rw [List.cons_append, collapseAfterSep, if_pos hc, collapseAfterSep, if_pos hc]
          exact ih.2
      · constructor
        · rw [List.cons_append, collapseRuns, if_neg hc, collapseRuns, if_neg hc]
          rcases ih.1 with h1 | h1
          · exact Or.inl (by rw [h1])
          · exact Or.inr (by rw [h1, List.cons_append])
        · rw [List.cons_append, collapseAfterSep, if_neg hc, collapseAfterSep, if_neg hc]
          rcases ih.1 with h1 | h1
          · exact Or.inl (by rw [h1])
          · exact Or.inr (by rw [h1]; rfl)

theorem stripEdge_append_hyphen (l : List Char) :
    stripEdgeHyphens (l ++ ['-']) = stripEdgeHyphens l := by
  unfold stripEdgeHyphens
  rw [dropTrailWhile_append_singleton isHyphen '-' l (by decide)]

/-! ### The trim step of the slug hook does not change the outcome -/

theorem slug_core_dropTrail (m : List Char) :
    stripEdgeHyphens (collapseRuns (removeSpecial (dropTrailWhile isJsWS m))) =
    stripEdgeHyphens (collapseRuns (removeSpecial m)) := by
  obtain ⟨w, hm, hw⟩ := dropTrailWhile_decomp isJsWS m
  have hw' : ∀ c ∈ w, keepChar c = true := fun c hc => keepChar_of_isJsWS (hw c hc)
  have hsep : ∀ c ∈ w, isSep c = true := fun c hc => isSep_of_isJsWS (hw c hc)
  conv_rhs => rw [hm]
  simp only [removeSpecial, List.filter_append, List.filter_eq_self.mpr hw']
  rcases (collapse_append_sep w hsep (List.filter keepChar (dropTrailWhile isJsWS m))).1
    with h | h
  · rw [h]
  · rw [h, stripEdge_append_hyphen]

theorem slug_core_dropWhile (m : List Char) :
    stripEdgeHyphens (collapseRuns (removeSpecial (m.dropWhile isJsWS))) =
    stripEdgeHyphens (collapseRuns (removeSpecial m)) := by
  induction m with
  | nil => rfl
  | cons c m ih =>
      by_cases hc : isJsWS c = true
      · rw [List.dropWhile_cons_of_pos hc, ih]
        simp only [removeSpecial, List.filter_cons_of_pos (keepChar_of_isJsWS hc)]
        rw [collapseRuns, if_pos (isSep_of_isJsWS hc)]
        exact (stripEdge_afterSep (List.filter keepChar m)).symm
      · rw [List.dropWhile_cons_of_neg hc]

theorem slugChars_eq_specSlugChars (l : List Char) : slugChars l = specSlugChars l := by
  unfold slugChars specSlugChars trimChars
  rw [slug_core_dropTrail (List.dropWhile isJsWS (l.map lowerChar)), slug_core_dropWhile]

/-! ### The time regex accepts exactly the amended shape -/

theorem timeOkChars_eq_amended : ∀ l, timeOkChars l = amendedTimeChars l
  | [] => rfl
  | [_] => rfl
  | [_, _] => rfl
  | [_, _, _] => rfl
  | [h1, c, m1, m2] => by
      rw [Bool.eq_iff_iff]
      simp only [timeOkChars, amendedTimeChars, isDigitC, digitVal,
        Bool.and_eq_true, Bool.or_eq_true, decide_eq_true_eq]
      omega
  | [h1, h2, c, m1, m2] => by
      rw [Bool.eq_iff_iff]
      simp only [timeOkChars, amendedTimeChars, isDigitC, digitVal,
        Bool.and_eq_true, Bool.or_eq_true, decide_eq_true_eq]
      omega
  | _ :: _ :: _ :: _ :: _ :: _ :: _ => rfl

/-! ### Validation characterization -/

theorem requiredNonBlank_iff (f : Option String) :
    requiredNonBlank f = true ↔ nonBlankPresent f := by
  cases f with
  | none => simp [requiredNonBlank, nonBlankPresent]
  | some s => simp [requiredNonBlank, nonBlankPresent]

theorem modeOk_iff (f : Option String) :
    modeOk f = true ↔
      ∃ s, f = some s ∧ trimStr s ∈ (["online", "offline", "hybrid"] : List String) := by
  cases f with
  | none => simp [modeOk]
  | some s => simp [modeOk, or_assoc]

theorem isEmpty_false_iff (l : List String) : l.isEmpty = false ↔ l ≠ [] := by
  cases l <;> simp [List.isEmpty]

theorem firstFailure_ok_iff (cs : List (Bool × String)) :
    firstFailure cs = .ok () ↔ ∀ c ∈ cs, c.1 = true := by
  induction cs with
  | nil => simp [firstFailure]
  | cons c rest ih =>
      obtain ⟨ok, msg⟩ := c
      by_cases hok : ok = true
      · subst hok
        simp [firstFailure, ih]
      · simp only [Bool.not_eq_true] at hok
        subst hok
        simp [firstFailure]

theorem validateEvent_ok_bool (e : EventInput) :
    validateEvent e = .ok () ↔
      (requiredNonBlank e.title = true ∧ requiredNonBlank e.description = true ∧
        requiredNonBlank e.overview = true ∧ requiredNonBlank e.image = true ∧
        requiredNonBlank e.venue = true ∧ requiredNonBlank e.location = true ∧
        requiredNonBlank e.date = true ∧ requiredNonBlank e.time = true ∧
        requiredNonBlank e.mode = true ∧ modeOk e.mode = true ∧
        requiredNonBlank e.audience = true ∧ e.agenda.isEmpty = false ∧
        requiredNonBlank e.organizer = true ∧ e.tags.isEmpty = false) := by
  rw [validateEvent, firstFailure_ok_iff]
  simp [eventChecks]

theorem validateEvent_ok_iff (e : EventInput) :
    validateEvent e = .ok () ↔ eventValidSpec e := by
  rw [validateEvent_ok_bool]
  unfold eventValidSpec
  rw [requiredNonBlank_iff, requiredNonBlank_iff, requiredNonBlank_iff,
    requiredNonBlank_iff, requiredNonBlank_iff, requiredNonBlank_iff,
    requiredNonBlank_iff, requiredNonBlank_iff, requiredNonBlank_iff,
    requiredNonBlank_iff, requiredNonBlank_iff, modeOk_iff,
    isEmpty_false_iff, isEmpty_false_iff]
  tauto

/-! ### Date bounds and the canonical shape of normalized dates -/

theorem daysInMonth_le (y m : Nat) : daysInMonth y m ≤ 31 := by
  unfold daysInMonth
  split_ifs <;> omega

theorem parseIsoDate_bounds {s : String} {y m d : Nat}
    (h : parseIsoDate s = some (y, m, d)) :
    1 ≤ m ∧ m ≤ 12 ∧ 1 ≤ d ∧ d ≤ 31 := by
  rw [parseIsoDate] at h
  split at h
  · split at h
    · split at h
      · rename_i hrange
        injection h with h2
        obtain ⟨hy, hmd⟩ := Prod.mk.inj h2
        obtain ⟨hm, hd⟩ := Prod.mk.inj hmd
        subst hy
        subst hm
        subst hd
        exact ⟨hrange.1, hrange.2.1, hrange.2.2.1,
          le_trans hrange.2.2.2 (daysInMonth_le _ _)⟩
      · exact Option.noConfusion h
    · exact Option.noConfusion h
  · exact Option.noConfusion h

theorem digitChar_toNat {n : Nat} (h : n < 10) : (digitChar n).toNat = 0x30 + n := by
  interval_cases n <;> rfl

theorem canonicalDate_shape {y m d : Nat} (hm1 : 1 ≤ m) (hm2 : m ≤ 12)
    (hd1 : 1 ≤ d) (hd2 : d ≤ 31) :
    isCanonDateShape (canonicalDate y m d) = true := by
  have e1 := digitChar_toNat (show y / 1000 % 10 < 10 by omega)
  have e2 := digitChar_toNat (show y / 100 % 10 < 10 by omega)
  have e3 := digitChar_toNat (show y / 10 % 10 < 10 by omega)
  have e4 := digitChar_toNat (show y % 10 < 10 by omega)
  have e5 := digitChar_toNat (show m / 10 % 10 < 10 by omega)
  have e6 := digitChar_toNat (show m % 10 < 10 by omega)
  have e7 := digitChar_toNat (show d / 10 % 10 < 10 by omega)
  have e8 := digitChar_toNat (show d % 10 < 10 by omega)
  have hh : ('-').toNat = 0x2D := rfl
  simp only [canonicalDate, isCanonDateShape, isDigitC, digitVal, Bool.and_eq_true,
    decide_eq_true_eq, e1, e2, e3, e4, e5, e6, e7, e8, hh]
  clear e1 e2 e3 e4 e5 e6 e7 e8 hh
  repeat' apply And.intro
  all_goals first
  | exact trivial
  | omega

theorem normalizeDate_shape {s t : String} (h : normalizeDate s = .ok t) :
    isCanonDateShape t = true := by
  rw [normalizeDate] at h
  cases hp : parseIsoDate s with
  | none => rw [hp] at h; exact Except.noConfusion h
  | some ymd =>
      obtain ⟨y, m, d⟩ := ymd
      rw [hp] at h
      have ht := Except.ok.inj h
      obtain ⟨hm1, hm2, hd1, hd2⟩ := parseIsoDate_bounds hp
      rw [← ht]
      exact canonicalDate_shape hm1 hm2 hd1 hd2

theorem normalizeDate_none {s : String} (h : parseIsoDate s = none) :
    normalizeDate s = .error .invalidDate := by
  rw [normalizeDate, h]

/-! ### Inversion of a successful Event create -/

theorem createEvent_ok_elim {db : List EventDoc} {e : EventInput}
    {db' : List EventDoc} {doc : EventDoc}
    (h : createEvent db e = .ok (db', doc)) :
    validateEvent e = .ok () ∧
    normalizeDate (getTrim e.date) = .ok doc.date ∧
    timeOk (getTrim e.time) = true ∧
    doc.time = getTrim e.time ∧
    doc.slug = slugify (getTrim e.title) ∧
    db' = db ++ [doc] ∧
    (db.any fun d => d.slug == doc.slug) = false := by
  rw [createEvent] at h
  split at h
  · exact Except.noConfusion h
  · rename_i u hv
    split at h
    · exact Except.noConfusion h
    · rename_i dateN hnd
      split at h
      · rename_i ht
        rw [insertEvent] at h
        split at h
        · exact Except.noConfusion h
        · rename_i ha
          injection h with h2
          obtain ⟨hdb, hdoc⟩ := Prod.mk.inj h2
          subst hdoc
          subst hdb
          refine ⟨?_, hnd, ht, rfl, rfl, rfl, ?_⟩
          · rw [hv]
          · simpa using ha
      · exact Except.noConfusion h

/-! ### Claims -/

/-- Claim C3: for every title string the slug derived at write time equals
the spec's description — lowercase, remove characters outside
word-characters/whitespace/hyphen, collapse runs of
whitespace/underscore/hyphen to a single hyphen, strip edge hyphens (the
hook's extra trim step never changes the outcome) — and the title
"My Cool Talk!!" yields exactly the slug "my-cool-talk". -/
theorem slug_derivation_matches_spec :
    (∀ s : String, slugify s = specSlugify s) ∧
    slugify "My Cool Talk!!" = "my-cool-talk" :=
  ⟨fun s => congrArg String.mk (slugChars_eq_specSlugChars s.data), by decide⟩

/-- Claim C4: an Event write whose date is unparseable as a calendar date
fails with the invalid-date ValidationError ("13/01/2025" is rejected);
otherwise the stored date has the canonical YYYY-MM-DD shape, and the date
"2025-01-13" is stored exactly as "2025-01-13". -/
theorem date_normalization :
    (∀ s : String, parseIsoDate s = none → normalizeDate s = .error .invalidDate) ∧
    (∀ s t : String, normalizeDate s = .ok t → isCanonDateShape t = true) ∧
    (∀ (db : List EventDoc) (e : EventInput) (db' : List EventDoc) (doc : EventDoc),
      createEvent db e = .ok (db', doc) → isCanonDateShape doc.date = true) ∧
    createEvent [] { baseInput with date := some "13/01/2025" } = .error .invalidDate ∧
    createEvent [] baseInput = .ok ([baseDoc], baseDoc) ∧
    baseDoc.date = "2025-01-13" := by
  refine ⟨fun s h => normalizeDate_none h, fun s t h => normalizeDate_shape h,
    ?_, rfl, rfl, rfl⟩
  intro db e db' doc h
  exact normalizeDate_shape (createEvent_ok_elim h).2.1

/-- Witness for C4 at concrete inputs: the unparseable "13/01/2025" and the
canonical shape of the stored "2025-01-13". -/
theorem date_normalization_witness :
    normalizeDate "13/01/2025" = .error .invalidDate ∧
    isCanonDateShape "2025-01-13" = true :=
  ⟨date_normalization.1 "13/01/2025" (by decide),
    date_normalization.2.1 "2025-01-13" "2025-01-13" rfl⟩

/-- Claim C9: an Event write passes schema validation exactly when title,
description, overview, image, venue, location, date, time, mode, audience
and organizer are present and non-blank after trimming, mode is one of
online/offline/hybrid, and agenda and tags each have at least one element;
in particular a create with an empty agenda and a create with empty tags
both fail with a ValidationError. -/
theorem event_validation :
    (∀ e : EventInput, validateEvent e = .ok () ↔ eventValidSpec e) ∧
    createEvent [] { baseInput with agenda := [] } =
      .error (.validationFailed "Agenda must contain at least one item") ∧
    createEvent [] { baseInput with tags := [] } =
      .error (.validationFailed "At least one tag is required") :=
  ⟨validateEvent_ok_iff, rfl, rfl⟩

/-- Witness for C9: the fully valid sample input satisfies the spec-worded
validity, through the characterization applied at it. -/
theorem event_validation_witness : eventValidSpec baseInput :=
  (event_validation.1 baseInput).mp rfl

/-- Claim C10: a non-empty title of only removed characters ("!!!") derives
the empty slug, such an Event persists with slug "", and a second Event
whose title ("???") also derives "" then collides on the unique slug
index. -/
theorem empty_slug_collision :
    slugify "!!!" = "" ∧
    createEvent [] { baseInput with title := some "!!!" } = .ok ([bangDoc], bangDoc) ∧
    bangDoc.title = "!!!" ∧ bangDoc.slug = "" ∧
    createEvent [bangDoc] { baseInput with title := some "???" } =
      .error .duplicateSlug :=
  ⟨by decide, rfl, rfl, rfl, rfl⟩

/-- Claim C5 counterexample: the write with time "9:05" — not of the
two-digit-hour HH:MM shape the claim asserts for every persisted Event —
is accepted by the hook's regex and persists with time "9:05", instead of
failing with a ValidationError. -/
theorem time_two_digit_counterexample :
    specTimeShape "9:05" = false ∧
    timeOk "9:05" = true ∧
    createEvent [] { baseInput with time := some "9:05" } =
      .ok ([{ baseDoc with time := "9:05" }], { baseDoc with time := "9:05" }) :=
  ⟨by decide, by decide, rfl⟩

/-- Claim C5 (amended): the hook accepts exactly the times `H:MM` or
`HH:MM` whose hour (one or two digits, leading zero optional) has value
0-23 and whose minute is exactly two digits 00-59 — so every persisted
Event's time has that shape; "25:61" and "9:5" are rejected with a
ValidationError and "09:05" is accepted. -/
theorem time_format_amended :
    (∀ s : String, timeOk s = amendedTimeShape s) ∧
    (∀ (db : List EventDoc) (e : EventInput) (db' : List EventDoc) (doc : EventDoc),
      createEvent db e = .ok (db', doc) → amendedTimeShape doc.time = true) ∧
    createEvent [] { baseInput with time := some "25:61" } = .error .invalidTime ∧
    createEvent [] { baseInput with time := some "9:5" } = .error .invalidTime ∧
    createEvent [] baseInput = .ok ([baseDoc], baseDoc) ∧ baseDoc.time = "09:05" := by
  refine ⟨fun s => timeOkChars_eq_amended s.data, ?_, rfl, rfl, rfl, rfl⟩
  intro db e db' doc h
  obtain ⟨-, -, ht, htime, -⟩ := createEvent_ok_elim h
  rw [htime]
  show amendedTimeChars (getTrim e.time).data = true
  rw [← timeOkChars_eq_amended]
  exact ht

/-- Witness for C5 (amended) at the concrete accepted write of
`baseInput`: its persisted time has the amended shape. -/
theorem time_format_amended_witness : amendedTimeShape baseDoc.time = true :=
  time_format_amended.2.1 [] baseInput [baseDoc] baseDoc rfl

/-- Claim C8: slug uniqueness is enforced by the storage layer's unique
index — after a first create succeeds, a second create whose title derives
the same slug (and which passes its own validation and date/time checks)
fails with the constraint violation. -/
theorem slug_unique_index :
    ∀ (db db1 : List EventDoc) (e1 e2 : EventInput) (doc1 : EventDoc),
      createEvent db e1 = .ok (db1, doc1) →
      validateEvent e2 = .ok () →
      (∃ t, normalizeDate (getTrim e2.date) = .ok t) →
      timeOk (getTrim e2.time) = true →
      slugify (getTrim e2.title) = slugify (getTrim e1.title) →
      createEvent db1 e2 = .error .duplicateSlug := by
  intro db db1 e1 e2 doc1 h1 hv hex ht hslug
  obtain ⟨t, hnd⟩ := hex
  obtain ⟨-, -, -, -, hslug1, hdb1, -⟩ := createEvent_ok_elim h1
  have hany : (db1.any fun d => d.slug == slugify (getTrim e2.title)) = true := by
    rw [hdb1, List.any_append, Bool.or_eq_true]
    apply Or.inr
    simp [List.any, hslug1, hslug]
  simp only [createEvent, hv, hnd, ht, if_true, insertEvent, hany]

/-- Witness for C8: "my cool talk" collides with the already persisted
"My Cool Talk!!" — the second create is refused by the index. -/
theorem slug_unique_index_witness :
    createEvent [baseDoc] { baseInput with title := some "my cool talk" } =
      .error .duplicateSlug :=
  slug_unique_index [] [baseDoc] baseInput { baseInput with title := some "my cool talk" }
    baseDoc rfl rfl ⟨"2025-01-13", rfl⟩ (by decide) (by decide)

/-- Claim C1: a Booking create — and any write in which eventId is newly
set or changed, both running the hook with the lookup against actual Event
storage (`createBooking` is definitionally this call) — fails with the
reference error and persists nothing when the referenced Event does not
exist at check time, and succeeds (appending exactly the booking) only
when it exists. -/
theorem booking_referential_integrity :
    ∀ (st : BookingStore) (b : BookingDoc),
      (st.eventIds.contains b.eventId = false →
        saveBooking st b true (findEventById st b.eventId) =
          .error (.referenceMissing
            ("Event with ID " ++ toString b.eventId ++ " does not exist"))) ∧
      (∀ st', saveBooking st b true (findEventById st b.eventId) = .ok st' →
        st.eventIds.contains b.eventId = true ∧
        st'.bookings = st.bookings ++ [b] ∧ st'.eventIds = st.eventIds) := by
  intro st b
  constructor
  · intro hc
    unfold saveBooking findEventById
    rw [if_pos rfl, hc]
  · intro st' h
    unfold saveBooking findEventById at h
    rw [if_pos rfl] at h
    cases hc : st.eventIds.contains b.eventId with
    | false =>
        rw [hc] at h
        exact Except.noConfusion h
    | true =>
        rw [hc] at h
        have hst := Except.ok.inj h
        rw [← hst]
        exact ⟨rfl, rfl, rfl⟩

/-- Witness for C1: a booking for the absent Event 7 is refused against a
store holding only Event 5; one for the present Event 7 is appended. -/
theorem booking_referential_integrity_witness :
    saveBooking ⟨[5], []⟩ ⟨7, "dev@example.com"⟩ true (findEventById ⟨[5], []⟩ 7) =
      .error (.referenceMissing "Event with ID 7 does not exist") ∧
    ((⟨[7], [⟨7, "dev@example.com"⟩]⟩ : BookingStore).eventIds.contains 7 = true ∧
      (⟨[7], [⟨7, "dev@example.com"⟩]⟩ : BookingStore).bookings =
        ([] : List BookingDoc) ++ [⟨7, "dev@example.com"⟩] ∧
      (⟨[7], [⟨7, "dev@example.com"⟩]⟩ : BookingStore).eventIds = [7]) :=
  ⟨(booking_referential_integrity ⟨[5], []⟩ ⟨7, "dev@example.com"⟩).1 (by decide),
    (booking_referential_integrity ⟨[7], []⟩ ⟨7, "dev@example.com"⟩).2
      ⟨[7], [⟨7, "dev@example.com"⟩]⟩ rfl⟩

/-- Claim C6: when the Event-existence lookup itself fails with a
storage-level error, the Booking write is aborted with the wrapped
reference-check failure — the error result carries no new store, so no
Booking is persisted (fail-closed). -/
theorem booking_lookup_failure_fail_closed :
    ∀ (st : BookingStore) (b : BookingDoc) (msg : String),
      saveBooking st b true (.error msg) =
        .error (.referenceCheckFailed ("Error validating event: " ++ msg)) :=
  fun _ _ _ => rfl

/-- Claim C2: with a cached connection, acquire returns it immediately with
no state change and no new attempt; from a fresh state, two concurrent
first callers' atomic prefixes (in either order — both run the same
prefix) start exactly one underlying attempt, suspend on that same
attempt, and when it resolves with a connection both callers return that
same instance, which is now cached. -/
theorem single_connection_attempt :
    (∀ (s : CMState) (c : Nat), s.conn = some c → acquireSync s = (s, .ret c)) ∧
    (∀ s : CMState, s.conn = none → s.promise = none →
      ∃ s1 a, acquireSync s = (s1, .awaits a) ∧
        s1.attemptsStarted = s.attemptsStarted + 1 ∧
        acquireSync s1 = (s1, .awaits a) ∧
        ∀ c : Nat,
          (resumeSuccess s1 c).2 = .ok c ∧
          (resumeSuccess (resumeSuccess s1 c).1 c).2 = .ok c ∧
          (resumeSuccess (resumeSuccess s1 c).1 c).1.conn = some c) := by
  constructor
  · intro s c hc
    unfold acquireSync
    rw [hc]
  · intro s h1 h2
    refine ⟨⟨none, some (s.attemptsStarted + 1), s.attemptsStarted + 1⟩,
      s.attemptsStarted + 1, ?_, rfl, ?_, ?_⟩
    · unfold acquireSync
      rw [h1, h2]
    · unfold acquireSync
      rfl
    · intro c
      exact ⟨rfl, rfl, rfl⟩

/-- Witness for C2 from the pristine process state. -/
theorem single_connection_attempt_witness :
    acquireSync ⟨some 3, none, 1⟩ = (⟨some 3, none, 1⟩, .ret 3) ∧
    ∃ s1 a, acquireSync ⟨none, none, 0⟩ = (s1, .awaits a) ∧
      s1.attemptsStarted = 0 + 1 ∧
      acquireSync s1 = (s1, .awaits a) ∧
      ∀ c : Nat,
        (resumeSuccess s1 c).2 = .ok c ∧
        (resumeSuccess (resumeSuccess s1 c).1 c).2 = .ok c ∧
        (resumeSuccess (resumeSuccess s1 c).1 c).1.conn = some c :=
  ⟨single_connection_attempt.1 ⟨some 3, none, 1⟩ 3 rfl,
    single_connection_attempt.2 ⟨none, none, 0⟩ rfl rfl⟩

/-- Claim C7: on a failed attempt each awaiting caller's resumption clears
the in-flight promise slot (without touching the cached connection, which
only a successful resumption ever sets) and rethrows the failure to that
caller — so every awaiting caller sees the error — and a subsequent
acquire from the still-unconnected state starts a fresh attempt. -/
theorem connection_failure_resets :
    ∀ (s : CMState) (err : String),
      (resumeFailure s err).1.promise = none ∧
      (resumeFailure s err).1.conn = s.conn ∧
      (resumeFailure s err).2 = .error err ∧
      (resumeFailure (resumeFailure s err).1 err).2 = .error err ∧
      (s.conn = none →
        acquireSync (resumeFailure s err).1 =
          ({ conn := none, promise := some (s.attemptsStarted + 1),
             attemptsStarted := s.attemptsStarted + 1 },
            .awaits (s.attemptsStarted + 1))) := by
  intro s err
  refine ⟨rfl, rfl, rfl, rfl, ?_⟩
  intro hc
  unfold acquireSync resumeFailure
  rw [hc]

/-- Witness for C7: a failed first attempt at state (no connection, attempt
1 in flight) clears the promise, and the next acquire starts attempt 2. -/
theorem connection_failure_resets_witness :
    acquireSync (resumeFailure ⟨none, some 1, 1⟩ "refused").1 =
      (⟨none, some 2, 2⟩, .awaits 2) :=
  (connection_failure_resets ⟨none, some 1, 1⟩ "refused").2.2.2.2 rfl

end DevEvents
